import Mathlib

/-!
Verification development for the Arieo-PackageManager repository.

The repository contains two procedural Python scripts:
  * `src/gather_packages.py` — a manifest-driven gatherer that copies
    per-package `ArieoPackage.yaml` descriptor files into a cache directory;
  * `src/build_packages_v2.py` — a build driver that runs a configure step and
    a build step for every (preset, build type) pair.

This file gives a shallow embedding of both scripts.  Pure string
manipulation is translated directly.  Library calls (YAML parsing,
`os.path.expandvars`, `Path.resolve`, the filesystem, `subprocess.run`) are
modelled as oracles: functions supplied as parameters, so that every theorem
quantifies over all of their behaviours.  The filesystem side effects of the
gatherer are made explicit as a cache state threaded through the run, and the
side effects of the build driver are recorded as an event trace.
-/

/-! ## YAML values

Model of the Python values produced by `yaml.safe_load` for the documents this
program handles.  `ynull` is Python `None` (produced for empty documents,
comment-only documents, and explicit `null`). -/

inductive YamlVal where
  | ynull : YamlVal
  | ybool : Bool → YamlVal
  | yint : Int → YamlVal
  | ystr : String → YamlVal
  | ylist : List YamlVal → YamlVal
  | ymap : List (String × YamlVal) → YamlVal

/-- Python truthiness (`not x` in the source tests falsiness). -/
def pyTruthy : YamlVal → Bool
  | .ynull => false
  | .ybool b => b
  | .yint n => n != 0
  | .ystr s => !s.data.isEmpty
  | .ylist xs => !xs.isEmpty
  | .ymap kvs => !kvs.isEmpty

/-- Python `isinstance(x, str)`. -/
def YamlVal.isStr : YamlVal → Bool
  | .ystr _ => true
  | _ => false

/-- Python `isinstance(x, dict)`. -/
def YamlVal.isMap : YamlVal → Bool
  | .ymap _ => true
  | _ => false

/-- Python `x is None`. -/
def YamlVal.isNull : YamlVal → Bool
  | .ynull => true
  | _ => false

/-- Python `type(x).__name__` for the modelled values. -/
def pyTypeName : YamlVal → String
  | .ynull => "NoneType"
  | .ybool _ => "bool"
  | .yint _ => "int"
  | .ystr _ => "str"
  | .ylist _ => "list"
  | .ymap _ => "dict"

/-- Dictionary lookup (`data[k]`, with `k in data` deciding presence). -/
def lookupKv : List (String × YamlVal) → String → Option YamlVal
  | [], _ => none
  | (k, v) :: rest, key => if k = key then some v else lookupKv rest key

/-- `data[k]` on a YAML value; `none` when the key is absent or the value is
not a mapping. -/
def yamlGet : YamlVal → String → Option YamlVal
  | .ymap kvs, key => lookupKv kvs key
  | _, _ => none

/-! ## Files

A YAML file on disk is modelled by its raw text together with the result of
`yaml.safe_load` on that text (the parser is an oracle: the relation between
the two is the YAML grammar, which we do not re-implement).  A filesystem is a
partial map from paths to files. -/

structure YamlFile where
  content : String
  parsed : Except String YamlVal

/-- Filesystem oracle for regular files: `none` means the path does not exist. -/
def FileSys := String → Option YamlFile

/-! ## Python string helpers

`str.replace(old, new)` replaces every non-overlapping occurrence, scanning
left to right; `str.split(sep)` with a one-character separator; `str.rstrip(c)`
removes every trailing `c`.  All are implemented on `List Char`. -/

/-- Worker for `replaceCL`: structural recursion on a fuel argument, so that
the definition evaluates inside the kernel.  Each step consumes at least one
character of the text (the pattern is nonempty), so fuel equal to the length
of the text is enough. -/
def replaceAux (pat rep : List Char) : Nat → List Char → List Char
  | 0, l => l
  | _ + 1, [] => []
  | fuel + 1, c :: rest =>
    if pat.isPrefixOf (c :: rest) then
      rep ++ replaceAux pat rep fuel ((c :: rest).drop pat.length)
    else
      c :: replaceAux pat rep fuel rest

/-- Python `s.replace(pat, rep)` on character lists, for a nonempty pattern
(the source only replaces the fixed patterns `${CUR_MANIFEST_FILE_DIR}` and
`.git`). -/
def replaceCL (pat rep l : List Char) : List Char :=
  if pat.isEmpty then l else replaceAux pat rep l.length l

/-- Python `s.replace(pat, rep)` on strings. -/
def pyReplace (s pat rep : String) : String :=
  ⟨replaceCL pat.data rep.data s.data⟩

/-- Python `s.split(sep)` for a single-character separator. -/
def splitCL (sep : Char) : List Char → List (List Char)
  | [] => [[]]
  | c :: rest =>
    if c = sep then
      [] :: splitCL sep rest
    else
      match splitCL sep rest with
      | [] => [[c]]
      | h :: t => (c :: h) :: t

/-- Python `s.rstrip(c)` on character lists. -/
def rstripCL (c : Char) (l : List Char) : List Char :=
  (l.reverse.dropWhile (· = c)).reverse

/-- Python `s.strip()` with no argument: remove leading and trailing
whitespace. -/
def stripCL (l : List Char) : List Char :=
  ((l.dropWhile Char.isWhitespace).reverse.dropWhile Char.isWhitespace).reverse

/-! ## `verify_yaml` (src/gather_packages.py, lines 57–103)

Returns the source's `(is_valid, parsed_data, error_message)` triple.  Reading
an existing file is assumed to succeed (the generic `except Exception` arm is
environmental and not modelled); a parse failure is the `yaml.YAMLError` arm. -/

def verify_yaml (fs : FileSys) (yaml_path : String) :
    Bool × Option YamlVal × Option String :=
  match fs yaml_path with
  | none => (false, none, some ("File does not exist: " ++ yaml_path))
  | some file =>
    if (stripCL file.content.data).isEmpty then
      (false, none, some "YAML file is empty")
    else
      match file.parsed with
      | .error e => (false, none, some ("YAML syntax error: " ++ e))
      | .ok data =>
        if data.isNull then
          (false, none, some "YAML file is empty or contains only comments")
        else if !data.isMap then
          (false, none, some ("YAML root must be a dictionary, got " ++ pyTypeName data))
        else
          match yamlGet data "name" with
          | none => (false, none, some "Missing required field: \x27name\x27")
          | some v =>
            if !pyTruthy v || !v.isStr then
              (false, none, some "Field \x27name\x27 must be a non-empty string")
            else
              (true, some data, none)

/-! ## Manifest entries and the environment -/

/-- One item of the manifest's `packages` list.  The source tests `'local' in
entry` first and `'git' in entry` second, so both keys may be present; the
fields hold the corresponding values when the keys are present. -/
structure Entry where
  localPath : Option String
  gitUrl : Option String

/-- The loaded manifest: the injected `_manifest_dir` and the `packages` list
(`manifest.get('packages', [])`, so a missing or null list is `[]`). -/
structure Manifest where
  manifest_dir : String
  packages : List Entry

/-- Oracles for the gatherer's environment: `os.path.expandvars`,
`Path.resolve`, `Path.exists`, and the filesystem of YAML files. -/
structure Env where
  expandvars : String → String
  resolve : String → String
  pathExists : String → Bool
  fs : FileSys

/-- Repository name the gatherer displays for a `git` entry
(src/gather_packages.py, lines 150–152):
`git_url.split('@')[0]`, `.rstrip('/')`, `.split('/')[-1]`,
`.replace('.git', '')`. -/
def repo_name_of (git_url : String) : String :=
  let url_part := (splitCL '@' git_url.data).headD []
  let seg := (splitCL '/' (rstripCL '/' url_part)).getLastD []
  ⟨replaceCL ".git".data [] seg⟩

/-- The `name` field of a descriptor already known to be valid. -/
def descriptorName (d : YamlVal) : String :=
  match yamlGet d "name" with
  | some (.ystr s) => s
  | _ => ""

/-- Outcome of processing one manifest entry: which counter it feeds and, for
a copy, the destination subdirectory name and the copied file; for a skip, the
repository name displayed. -/
inductive EntryOutcome where
  | copiedE : String → YamlFile → EntryOutcome
  | skippedE : String → EntryOutcome
  | erroredE : EntryOutcome

/-- Processing of one entry of the `packages` list
(src/gather_packages.py, lines 140–200), without the counter updates. -/
def process_entry (env : Env) (manifest_dir : String) (e : Entry) : EntryOutcome :=
  match e.localPath with
  | some lp =>
    let p1 := pyReplace lp "$\x7bCUR_MANIFEST_FILE_DIR\x7d" manifest_dir
    let p2 := env.expandvars p1
    let package_path := env.resolve p2
    if !env.pathExists package_path then
      .erroredE
    else
      let arieo_yaml_path := package_path ++ "/ArieoPackage.yaml"
      match env.fs arieo_yaml_path with
      | none => .erroredE
      | some file =>
        match verify_yaml env.fs arieo_yaml_path with
        | (true, some pkg_data, _) => .copiedE (descriptorName pkg_data) file
        | _ => .erroredE
  | none =>
    match e.gitUrl with
    | some git_url => .skippedE (repo_name_of git_url)
    | none => .erroredE

/-! ## The gathering loop -/

/-- Loop state: the three counters and the cache contents (destination
subdirectory name ↦ the descriptor file copied there). -/
structure GState where
  copied : Nat
  skipped : Nat
  errored : Nat
  entries : String → Option YamlFile

/-- One iteration of the gathering loop: exactly one counter is incremented,
and on a copy the cache gains (or overwrites) the destination entry. -/
def gstep (env : Env) (manifest_dir : String) (st : GState) (e : Entry) : GState :=
  match process_entry env manifest_dir e with
  | .copiedE pkg_name file =>
    { st with
        copied := st.copied + 1
        entries := fun n => if n = pkg_name then some file else st.entries n }
  | .skippedE _ => { st with skipped := st.skipped + 1 }
  | .erroredE => { st with errored := st.errored + 1 }

/-- State of the cache directory: whether it exists and its contents. -/
structure CacheState where
  present : Bool
  entries : String → Option YamlFile

/-- Result of a gather run: the returned copied count, the other two
counters, and the final cache state. -/
structure GatherResult where
  copied : Nat
  skipped : Nat
  errored : Nat
  cache : CacheState

/-- `gather_packages_from_manifest` (src/gather_packages.py, lines 106–209).
Empty `packages` returns 0 before the clean and mkdir steps; otherwise the
cache is wiped when `clean` is set and the directory exists, the directory is
(re)created, and the entries are processed in manifest order.  The `verbose`
flag only affects printing and is not modelled. -/
def gather_packages_from_manifest (env : Env) (manifest : Manifest)
    (cache : CacheState) (clean : Bool) : GatherResult :=
  let manifest_dir := env.resolve manifest.manifest_dir
  if manifest.packages.isEmpty then
    ⟨0, 0, 0, cache⟩
  else
    let cache1 : CacheState :=
      if clean && cache.present then ⟨false, fun _ => none⟩ else cache
    let st := manifest.packages.foldl (gstep env manifest_dir)
      ⟨0, 0, 0, cache1.entries⟩
    ⟨st.copied, st.skipped, st.errored, ⟨true, st.entries⟩⟩

/-! ## `load_manifest` and `main` (src/gather_packages.py, lines 20–54 and 212–272)

Manifest files are an oracle mapping a path to `none` (file absent), a parse
or load error, or a loaded manifest.  `load_manifest` calls `sys.exit(1)` when
the file is absent and when reading, parsing, or the `_manifest_dir` injection
raises; both are modelled as `Except.error 1`. -/

/-- The manifest path used: the `--manifest` argument, else the default. -/
def manifestPath (arg : Option String) : String :=
  match arg with
  | none => "packages.manifest.yaml"
  | some p => p

def load_manifest (mfiles : String → Option (Except String Manifest))
    (arg : Option String) : Except Nat Manifest :=
  match mfiles (manifestPath arg) with
  | none => .error 1
  | some (.error _) => .error 1
  | some (.ok m) => .ok m

/-- Command-line arguments of the gatherer. -/
structure GatherArgs where
  manifest_file : Option String
  clean : Bool
  verbose : Bool

/-- Observable outcome of the gatherer's `main`: a fatal `sys.exit` before any
gathering, or a completed gather with the copied count, the process exit code,
and the final cache state. -/
inductive MainOutcome where
  | fatalExit : Nat → MainOutcome
  | gathered : Nat → Nat → CacheState → MainOutcome

/-- The gatherer's `main` (src/gather_packages.py, lines 212–272): load the
manifest (fatal exit 1 on failure), gather, and exit 0 when the copied count
is positive, else 1.  `cache0` is the state of the resolved cache directory. -/
def gatherer_main (env : Env) (mfiles : String → Option (Except String Manifest))
    (args : GatherArgs) (cache0 : CacheState) : MainOutcome :=
  match load_manifest mfiles args.manifest_file with
  | .error c => .fatalExit c
  | .ok m =>
    let r := gather_packages_from_manifest env m cache0 args.clean
    .gathered r.copied (if r.copied > 0 then 0 else 1) r.cache

/-! ## Build driver (src/build_packages_v2.py)

`subprocess.run` is an oracle mapping a command line (its argv list) to an
exit code.  The run is recorded as a trace of directory creations and
subprocess invocations, and produces the value `main` returns (handed to
`sys.exit`). -/

/-- Command-line arguments of the build driver. -/
structure BuildArgs where
  cmake : String
  build_dir : Option String
  preset : List String
  build_type : List String
  package : List String

/-- The configure command (src/build_packages_v2.py, lines 36–43). -/
def configure_cmd (cmake_dir build_dir build_type preset : String) : List String :=
  ["cmake", "-G", "Ninja", "-S", cmake_dir, "-B", build_dir,
   "-DCMAKE_BUILD_TYPE=" ++ build_type, "-DARIEO_PRESET=" ++ preset]

/-- The build command (src/build_packages_v2.py, lines 53–59): one `--target`
flag followed by every requested package, or no target restriction when no
packages were requested. -/
def build_cmd (build_dir : String) (packages : List String) : List String :=
  ["cmake", "--build", build_dir] ++
    (if packages.isEmpty then [] else "--target" :: packages)

/-- Observable side effects of the driver: a `mkdir -p` of a build directory,
or a subprocess invocation returning an exit code. -/
inductive BEvent where
  | mkdirE : String → BEvent
  | runE : List String → Int → BEvent

/-- The build directory for one (preset, build type) pair. -/
def pairDir (base : String) (pr : String × String) : String :=
  base ++ "/" ++ pr.1 ++ "/" ++ pr.2

/-- The nested loop of the driver's `main` (src/build_packages_v2.py,
lines 28–64) over an explicit list of (preset, build type) pairs: create the
pair's build directory, configure, and on success build; a non-zero exit code
of either step is returned at once and no further pair is attempted. -/
def runPairs (runner : List String → Int) (cmake_dir base : String)
    (packages : List String) : List (String × String) → List BEvent × Int
  | [] => ([], 0)
  | pr :: rest =>
    let bd := pairDir base pr
    let ccode := runner (configure_cmd cmake_dir bd pr.2 pr.1)
    if ccode ≠ 0 then
      ([.mkdirE bd, .runE (configure_cmd cmake_dir bd pr.2 pr.1) ccode], ccode)
    else
      let bcode := runner (build_cmd bd packages)
      if bcode ≠ 0 then
        ([.mkdirE bd, .runE (configure_cmd cmake_dir bd pr.2 pr.1) ccode,
          .runE (build_cmd bd packages) bcode], bcode)
      else
        ([.mkdirE bd, .runE (configure_cmd cmake_dir bd pr.2 pr.1) ccode,
          .runE (build_cmd bd packages) bcode] ++
            (runPairs runner cmake_dir base packages rest).1,
         (runPairs runner cmake_dir base packages rest).2)

/-- The iteration order of the two nested `for` loops: the cartesian product
of presets × build types with presets as the outer loop. -/
def pairsOf (presets types : List String) : List (String × String) :=
  presets.flatMap fun p => types.map fun t => (p, t)

/-- The driver's `main` (src/build_packages_v2.py, lines 10–67): resolve the
paths, apply the `default` preset and `Release` build-type defaults, and run
the nested loop. -/
def build_main (runner : List String → Int) (resolve : String → String)
    (args : BuildArgs) : List BEvent × Int :=
  let cmake_dir := resolve args.cmake
  let base :=
    match args.build_dir with
    | some d => resolve d
    | none => cmake_dir ++ "/build"
  let presets := if args.preset.isEmpty then ["default"] else args.preset
  let types := if args.build_type.isEmpty then ["Release"] else args.build_type
  runPairs runner cmake_dir base args.package (pairsOf presets types)

/-- The build directories created during a trace, in creation order. -/
def mkdirsOf : List BEvent → List String
  | [] => []
  | .mkdirE d :: r => d :: mkdirsOf r
  | .runE _ _ :: r => mkdirsOf r

/-! ## Claim-side definitions

These definitions follow the words of the specification (not the source) and
exist to be compared with the source-derived definitions above. -/

/-- Modelled from the spec sentence for the git repository display name:
"strip a trailing `@ref`, take the last path segment, strip a trailing `.git`
suffix".  A trailing `@ref` suffix is the part of the string from the last
`@` on; a trailing `.git` suffix is removed only when the segment ends with
`.git`. -/
def repo_name_claimed (git_url : String) : String :=
  let r := git_url.data.reverse.dropWhile (· ≠ '@')
  let noRef := if r.isEmpty then git_url.data else (r.drop 1).reverse
  let seg := (splitCL '/' (rstripCL '/' noRef)).getLastD []
  let seg2 := if ".git".data.isSuffixOf seg then seg.take (seg.length - 4) else seg
  ⟨seg2⟩

/-- The amended derivation of the displayed repository name: take the portion
of the URL before the first `@`, strip trailing slashes, take the last
`/`-separated segment, and remove every occurrence of `.git` from it. -/
def repo_name_amended (git_url : String) : String :=
  let noRef := git_url.data.takeWhile (· ≠ '@')
  let seg := (splitCL '/' (rstripCL '/' noRef)).getLastD []
  ⟨replaceCL ".git".data [] seg⟩
/-! ## Concrete sample data

A small concrete environment used by the witness and counterexample theorems:
two local package directories `/a` and `/b`, both holding a valid descriptor
declaring the name `P`, with different file contents. -/

def fileA : YamlFile := ⟨"name: P", .ok (.ymap [("name", .ystr "P")])⟩

def fileB : YamlFile := ⟨"name: P\nv: 2", .ok (.ymap [("name", .ystr "P"), ("v", .yint 2)])⟩

def sampleEnv : Env where
  expandvars := id
  resolve := id
  pathExists := fun p => p = "/a" || p = "/b"
  fs := fun p =>
    if p = "/a/ArieoPackage.yaml" then some fileA
    else if p = "/b/ArieoPackage.yaml" then some fileB
    else none

/-- Concrete filesystem for the distinguishing cases of C2: a comment-only
file, a mapping without `name`, and a mapping with `name: 123`. -/
def c2fs : FileSys := fun p =>
  if p = "comment.yaml" then some ⟨"# just a comment", .ok .ynull⟩
  else if p = "noname.yaml" then some ⟨"foo: bar", .ok (.ymap [("foo", .ystr "bar")])⟩
  else if p = "intname.yaml" then some ⟨"name: 123", .ok (.ymap [("name", .yint 123)])⟩
  else none

/-- The base build output directory of the driver: the `--build_dir` argument
when given, else `build` under the cmake directory. -/
def buildBase (resolve : String → String) (args : BuildArgs) : String :=
  match args.build_dir with
  | some d => resolve d
  | none => resolve args.cmake ++ "/build"

/-- A runner on which every subprocess succeeds. -/
def okRunner : List String → Int := fun _ => 0

/-- A runner on which exactly the configure step of the pair `A/Debug`
fails, with exit code 1. -/
def failRunner : List String → Int := fun cmd =>
  if cmd = configure_cmd "src" "b/A/Debug" "Debug" "A" then 1 else 0

/-- The concrete two-presets, two-build-types invocation of the driver. -/
def argsAB : BuildArgs := ⟨"src", some "b", ["A", "B"], ["Debug", "Release"], []⟩

/-! ## Helper lemmas about the gathering loop -/

/-- The write that processing entry `e` performs at cache key `n`, if any. -/
def entryWrite (env : Env) (manifest_dir : String) (e : Entry) (n : String) :
    Option YamlFile :=
  match process_entry env manifest_dir e with
  | .copiedE m f => if n = m then some f else none
  | _ => none

/-- The last write a list of entries performs at cache key `n`, if any. -/
def lastWrite (env : Env) (manifest_dir : String) :
    List Entry → String → Option YamlFile
  | [], _ => none
  | e :: l, n =>
    match lastWrite env manifest_dir l n with
    | some f => some f
    | none => entryWrite env manifest_dir e n

theorem gstep_entries (env : Env) (mdir : String) (st : GState) (e : Entry)
    (n : String) :
    (gstep env mdir st e).entries n =
      match entryWrite env mdir e n with
      | some f => some f
      | none => st.entries n := by
  unfold gstep entryWrite
  cases process_entry env mdir e <;> simp
  split <;> simp

theorem foldl_gstep_entries (env : Env) (mdir : String) :
    ∀ (l : List Entry) (st : GState) (n : String),
      ((l.foldl (gstep env mdir) st).entries) n =
        match lastWrite env mdir l n with
        | some f => some f
        | none => st.entries n := by
  intro l
  induction l with
  | nil => intro st n; simp [lastWrite]
  | cons e l ih =>
    intro st n
    simp only [List.foldl_cons, lastWrite]
    rw [ih]
    cases h : lastWrite env mdir l n with
    | some f => simp
    | none =>
      simp only
      rw [gstep_entries]

theorem gstep_counts (env : Env) (mdir : String) (st : GState) (e : Entry) :
    ((gstep env mdir st e).copied = st.copied + 1 ∧
     (gstep env mdir st e).skipped = st.skipped ∧
     (gstep env mdir st e).errored = st.errored) ∨
    ((gstep env mdir st e).copied = st.copied ∧
     (gstep env mdir st e).skipped = st.skipped + 1 ∧
     (gstep env mdir st e).errored = st.errored) ∨
    ((gstep env mdir st e).copied = st.copied ∧
     (gstep env mdir st e).skipped = st.skipped ∧
     (gstep env mdir st e).errored = st.errored + 1) := by
  unfold gstep
  cases process_entry env mdir e <;> simp

theorem foldl_gstep_counts (env : Env) (mdir : String) :
    ∀ (l : List Entry) (st : GState),
      (l.foldl (gstep env mdir) st).copied +
        (l.foldl (gstep env mdir) st).skipped +
        (l.foldl (gstep env mdir) st).errored =
      st.copied + st.skipped + st.errored + l.length := by
  intro l
  induction l with
  | nil => intro st; simp
  | cons e l ih =>
    intro st
    simp only [List.foldl_cons, List.length_cons]
    rw [ih]
    rcases gstep_counts env mdir st e with ⟨h1, h2, h3⟩ | ⟨h1, h2, h3⟩ | ⟨h1, h2, h3⟩ <;>
      rw [h1, h2, h3] <;> omega

theorem lastWrite_append (env : Env) (mdir : String) (n : String) :
    ∀ (a b : List Entry),
      lastWrite env mdir (a ++ b) n =
        match lastWrite env mdir b n with
        | some f => some f
        | none => lastWrite env mdir a n := by
  intro a b
  induction a with
  | nil => cases h : lastWrite env mdir b n <;> simp [lastWrite, h]
  | cons e a ih =>
    simp only [List.cons_append, lastWrite, List.append_eq]
    rw [ih]
    cases h : lastWrite env mdir b n <;> simp [h]

theorem lastWrite_eq_none (env : Env) (mdir : String) (n : String) :
    ∀ (l : List Entry), (∀ e ∈ l, entryWrite env mdir e n = none) →
      lastWrite env mdir l n = none := by
  intro l
  induction l with
  | nil => intro _; rfl
  | cons e l ih =>
    intro h
    simp only [lastWrite]
    rw [ih fun x hx => h x (List.mem_cons_of_mem e hx)]
    exact h e (List.mem_cons_self e l)

/-! ## Claims about the gatherer's loop -/

/-- C8: for every manifest whose `packages` list is empty or missing,
`gather_packages_from_manifest` reports zero counters and returns 0
immediately, before the clean step and the cache-recreation step, so the
cache directory state — presence and contents — is exactly the input state
even when `clean` is requested. -/
theorem claim_C8 (env : Env) (m : Manifest) (cache : CacheState) (clean : Bool)
    (h : m.packages = []) :
    gather_packages_from_manifest env m cache clean = ⟨0, 0, 0, cache⟩ := by
  simp [gather_packages_from_manifest, h]

/-- Witness for C8: a run with `clean` requested on a pre-existing cache that
holds a stale entry leaves the cache present with the stale entry intact. -/
theorem claim_C8_witness :
    gather_packages_from_manifest sampleEnv ⟨"/m", []⟩
      ⟨true, fun n => if n = "Stale" then some fileA else none⟩ true =
    ⟨0, 0, 0, ⟨true, fun n => if n = "Stale" then some fileA else none⟩⟩ :=
  claim_C8 sampleEnv ⟨"/m", []⟩
    ⟨true, fun n => if n = "Stale" then some fileA else none⟩ true rfl

/-- C10: for every manifest with a non-empty `packages` list, the three
counters partition the entries: copied + skipped + errored equals the number
of entries, and every single loop iteration increments exactly one of the
three counters by one. -/
theorem claim_C10 (env : Env) (m : Manifest) (cache : CacheState) (clean : Bool)
    (h : m.packages ≠ []) :
    ((gather_packages_from_manifest env m cache clean).copied +
       (gather_packages_from_manifest env m cache clean).skipped +
       (gather_packages_from_manifest env m cache clean).errored =
     m.packages.length) ∧
    (∀ (st : GState) (e : Entry),
      (((gstep env (env.resolve m.manifest_dir) st e).copied = st.copied + 1 ∧
        (gstep env (env.resolve m.manifest_dir) st e).skipped = st.skipped ∧
        (gstep env (env.resolve m.manifest_dir) st e).errored = st.errored) ∨
       ((gstep env (env.resolve m.manifest_dir) st e).copied = st.copied ∧
        (gstep env (env.resolve m.manifest_dir) st e).skipped = st.skipped + 1 ∧
        (gstep env (env.resolve m.manifest_dir) st e).errored = st.errored) ∨
       ((gstep env (env.resolve m.manifest_dir) st e).copied = st.copied ∧
        (gstep env (env.resolve m.manifest_dir) st e).skipped = st.skipped ∧
        (gstep env (env.resolve m.manifest_dir) st e).errored = st.errored + 1))) := by
  have hne : m.packages.isEmpty = false := by
    cases hp : m.packages with
    | nil => exact absurd hp h
    | cons a l => rfl
  constructor
  · simp only [gather_packages_from_manifest, hne]
    simp only [Bool.false_eq_true, if_false]
    rw [foldl_gstep_counts]
    simp
  · intro st e
    exact gstep_counts env (env.resolve m.manifest_dir) st e

/-- Witness for C10: a manifest with one valid local entry, one git entry and
one malformed entry yields counters summing to 3. -/
theorem claim_C10_witness :
    (gather_packages_from_manifest sampleEnv
        ⟨"/m", [⟨some "/a", none⟩, ⟨none, some "u"⟩, ⟨none, none⟩]⟩
        ⟨false, fun _ => none⟩ false).copied +
      (gather_packages_from_manifest sampleEnv
        ⟨"/m", [⟨some "/a", none⟩, ⟨none, some "u"⟩, ⟨none, none⟩]⟩
        ⟨false, fun _ => none⟩ false).skipped +
      (gather_packages_from_manifest sampleEnv
        ⟨"/m", [⟨some "/a", none⟩, ⟨none, some "u"⟩, ⟨none, none⟩]⟩
        ⟨false, fun _ => none⟩ false).errored = 3 :=
  (claim_C10 sampleEnv
    ⟨"/m", [⟨some "/a", none⟩, ⟨none, some "u"⟩, ⟨none, none⟩]⟩
    ⟨false, fun _ => none⟩ false (List.cons_ne_nil _ _)).1

/-- C9: gathering is idempotent for unchanged entries: running
`gather_packages_from_manifest` a second time, without clean, on the cache
produced by the first run — with the same environment, i.e. the manifest and
every source package directory unchanged — leaves the cache state of the
first run exactly as it was. -/
theorem claim_C9 (env : Env) (m : Manifest) (cache : CacheState) :
    (gather_packages_from_manifest env m
        (gather_packages_from_manifest env m cache false).cache false).cache =
    (gather_packages_from_manifest env m cache false).cache := by
  cases hne : m.packages.isEmpty with
  | true => simp [gather_packages_from_manifest, hne]
  | false =>
    simp only [gather_packages_from_manifest, hne, Bool.false_eq_true, if_false,
      Bool.false_and]
    refine congrArg (CacheState.mk true) ?_
    funext n
    rw [foldl_gstep_entries, foldl_gstep_entries]
    cases hlw : lastWrite env (env.resolve m.manifest_dir) m.packages n <;>
      simp [hlw]

/-- C5: when two entries of the same run copy a descriptor declaring the same
`name`, and no later entry writes that name, the cache afterwards maps that
name to the descriptor of whichever entry came later in manifest order (the
later copy silently overwrites the earlier one), and the cache directory —
in which a name denotes a single subdirectory — is present. -/
theorem claim_C5 (env : Env) (m : Manifest) (cache : CacheState) (clean : Bool)
    (l1 l2 l3 : List Entry) (e1 e2 : Entry) (n : String) (f1 f2 : YamlFile)
    (hpk : m.packages = l1 ++ e1 :: (l2 ++ e2 :: l3))
    (h1 : process_entry env (env.resolve m.manifest_dir) e1 = .copiedE n f1)
    (h2 : process_entry env (env.resolve m.manifest_dir) e2 = .copiedE n f2)
    (h3 : ∀ e ∈ l3, entryWrite env (env.resolve m.manifest_dir) e n = none) :
    (gather_packages_from_manifest env m cache clean).cache.entries n = some f2 ∧
    (gather_packages_from_manifest env m cache clean).cache.present = true := by
  have hne : m.packages.isEmpty = false := by
    rw [hpk]; cases l1 <;> rfl
  have hw2 : entryWrite env (env.resolve m.manifest_dir) e2 n = some f2 := by
    unfold entryWrite; rw [h2]; simp
  have hlast : lastWrite env (env.resolve m.manifest_dir) m.packages n = some f2 := by
    rw [hpk, lastWrite_append]
    have h23 : lastWrite env (env.resolve m.manifest_dir) (e2 :: l3) n = some f2 := by
      simp only [lastWrite]
      rw [lastWrite_eq_none env (env.resolve m.manifest_dir) n l3 h3, hw2]
    have hrest : lastWrite env (env.resolve m.manifest_dir)
        (e1 :: (l2 ++ e2 :: l3)) n = some f2 := by
      simp only [lastWrite]
      rw [lastWrite_append]
      rw [h23]
    rw [hrest]
  constructor
  · simp only [gather_packages_from_manifest, hne, Bool.false_eq_true, if_false]
    rw [foldl_gstep_entries, hlast]
  · simp only [gather_packages_from_manifest, hne, Bool.false_eq_true, if_false]

/-- Witness for C5: entries `/a` then `/b`, both declaring name `P` with
different file contents; after the run the cache maps `P` to the file copied
from `/b`, the later entry. -/
theorem claim_C5_witness :
    (gather_packages_from_manifest sampleEnv
        ⟨"/m", [⟨some "/a", none⟩, ⟨some "/b", none⟩]⟩
        ⟨false, fun _ => none⟩ false).cache.entries "P" = some fileB ∧
    (gather_packages_from_manifest sampleEnv
        ⟨"/m", [⟨some "/a", none⟩, ⟨some "/b", none⟩]⟩
        ⟨false, fun _ => none⟩ false).cache.present = true :=
  claim_C5 sampleEnv ⟨"/m", [⟨some "/a", none⟩, ⟨some "/b", none⟩]⟩
    ⟨false, fun _ => none⟩ false [] [] [] ⟨some "/a", none⟩ ⟨some "/b", none⟩
    "P" fileA fileB rfl rfl rfl (by intro e he; exact absurd he (List.not_mem_nil e))

/-! ## Claim about the gatherer's exit status (C1) -/

/-- C1: whenever the gatherer's `main` reaches the exit statement, the exit
status is 0 exactly when the copied count is positive and 1 when it is zero,
whatever the skipped and errored counts; and when the manifest file is
missing, or cannot be read or parsed, the process exits fatally with status 1
before any gathering. -/
theorem claim_C1 (env : Env) (mfiles : String → Option (Except String Manifest))
    (args : GatherArgs) (cache0 : CacheState) :
    (∀ c ec s, gatherer_main env mfiles args cache0 = .gathered c ec s →
       ec = if c > 0 then 0 else 1) ∧
    (mfiles (manifestPath args.manifest_file) = none →
       gatherer_main env mfiles args cache0 = .fatalExit 1) ∧
    (∀ msg, mfiles (manifestPath args.manifest_file) = some (.error msg) →
       gatherer_main env mfiles args cache0 = .fatalExit 1) ∧
    (∀ m, mfiles (manifestPath args.manifest_file) = some (.ok m) →
       gatherer_main env mfiles args cache0 =
         .gathered (gather_packages_from_manifest env m cache0 args.clean).copied
           (if (gather_packages_from_manifest env m cache0 args.clean).copied > 0
            then 0 else 1)
           (gather_packages_from_manifest env m cache0 args.clean).cache) := by
  refine ⟨?_, ?_, ?_, ?_⟩
  · intro c ec s hg
    cases hl : mfiles (manifestPath args.manifest_file) with
    | none => simp [gatherer_main, load_manifest, hl] at hg
    | some r =>
      cases r with
      | error msg => simp [gatherer_main, load_manifest, hl] at hg
      | ok m =>
        simp only [gatherer_main, load_manifest, hl] at hg
        cases hg
        rfl
  · intro hl
    simp [gatherer_main, load_manifest, hl]
  · intro msg hl
    simp [gatherer_main, load_manifest, hl]
  · intro m hl
    simp [gatherer_main, load_manifest, hl]

/-- Witness for C1: with no manifest file anywhere, the run is a fatal exit
with status 1. -/
theorem claim_C1_witness :
    gatherer_main sampleEnv (fun _ => none) ⟨none, false, false⟩
      ⟨false, fun _ => none⟩ = .fatalExit 1 :=
  (claim_C1 sampleEnv (fun _ => none) ⟨none, false, false⟩
    ⟨false, fun _ => none⟩).2.1 rfl

/-! ## Claim about `verify_yaml` (C2) -/

/-- C2: `verify_yaml` always returns a three-way result — valid with the
parsed content and no message, or invalid with no content and a reason — and
rejects in the fixed order: missing file; empty content; YAML parse error;
non-mapping root; missing `name`; non-string or falsy `name`.  Each arm below
carries the negations of all earlier checks, so together they state the
order.  In particular a comment-only file is invalid with the
"empty"-mentioning reason, a mapping without `name` with the missing-field
reason, and `name: 123` with the non-empty-string reason. -/
theorem claim_C2 (fs : FileSys) (path : String) :
    ((∃ d, verify_yaml fs path = (true, some d, none)) ∨
     (∃ r, verify_yaml fs path = (false, none, some r))) ∧
    (fs path = none →
      verify_yaml fs path = (false, none, some ("File does not exist: " ++ path))) ∧
    (∀ file, fs path = some file → (stripCL file.content.data).isEmpty = true →
      verify_yaml fs path = (false, none, some "YAML file is empty")) ∧
    (∀ file e, fs path = some file → (stripCL file.content.data).isEmpty = false →
      file.parsed = .error e →
      verify_yaml fs path = (false, none, some ("YAML syntax error: " ++ e))) ∧
    (∀ file, fs path = some file → (stripCL file.content.data).isEmpty = false →
      file.parsed = .ok .ynull →
      verify_yaml fs path =
        (false, none, some "YAML file is empty or contains only comments")) ∧
    (∀ file d, fs path = some file → (stripCL file.content.data).isEmpty = false →
      file.parsed = .ok d → d.isNull = false → d.isMap = false →
      verify_yaml fs path =
        (false, none, some ("YAML root must be a dictionary, got " ++ pyTypeName d))) ∧
    (∀ file kvs, fs path = some file → (stripCL file.content.data).isEmpty = false →
      file.parsed = .ok (.ymap kvs) → lookupKv kvs "name" = none →
      verify_yaml fs path =
        (false, none, some "Missing required field: \x27name\x27")) ∧
    (∀ file kvs v, fs path = some file → (stripCL file.content.data).isEmpty = false →
      file.parsed = .ok (.ymap kvs) → lookupKv kvs "name" = some v →
      (!pyTruthy v || !v.isStr) = true →
      verify_yaml fs path =
        (false, none, some "Field \x27name\x27 must be a non-empty string")) ∧
    (∀ file kvs v, fs path = some file → (stripCL file.content.data).isEmpty = false →
      file.parsed = .ok (.ymap kvs) → lookupKv kvs "name" = some v →
      pyTruthy v = true → v.isStr = true →
      verify_yaml fs path = (true, some (.ymap kvs), none)) ∧
    (verify_yaml c2fs "comment.yaml" =
      (false, none, some "YAML file is empty or contains only comments")) ∧
    (verify_yaml c2fs "noname.yaml" =
      (false, none, some "Missing required field: \x27name\x27")) ∧
    (verify_yaml c2fs "intname.yaml" =
      (false, none, some "Field \x27name\x27 must be a non-empty string")) := by
  refine ⟨?_, ?_, ?_, ?_, ?_, ?_, ?_, ?_, ?_, rfl, rfl, rfl⟩
  · unfold verify_yaml
    split
    · right; exact ⟨_, rfl⟩
    · split
      · right; exact ⟨_, rfl⟩
      · split
        · right; exact ⟨_, rfl⟩
        · split
          · right; exact ⟨_, rfl⟩
          · split
            · right; exact ⟨_, rfl⟩
            · split
              · right; exact ⟨_, rfl⟩
              · split
                · right; exact ⟨_, rfl⟩
                · left; exact ⟨_, rfl⟩
  · intro hfs; simp [verify_yaml, hfs]
  · intro file hfs hstrip
    replace hstrip : stripCL file.content.data = [] := by simpa using hstrip
    simp [verify_yaml, hfs, hstrip]
  · intro file e hfs hstrip hp
    replace hstrip : ¬ stripCL file.content.data = [] := by simpa using hstrip
    simp [verify_yaml, hfs, hstrip, hp]
  · intro file hfs hstrip hp
    replace hstrip : ¬ stripCL file.content.data = [] := by simpa using hstrip
    simp [verify_yaml, hfs, hstrip, hp, YamlVal.isNull]
  · intro file d hfs hstrip hp hnull hmap
    replace hstrip : ¬ stripCL file.content.data = [] := by simpa using hstrip
    simp [verify_yaml, hfs, hstrip, hp, hnull, hmap]
  · intro file kvs hfs hstrip hp hget
    replace hstrip : ¬ stripCL file.content.data = [] := by simpa using hstrip
    simp [verify_yaml, hfs, hstrip, hp, yamlGet, hget, YamlVal.isNull, YamlVal.isMap]
  · intro file kvs v hfs hstrip hp hget hcond
    replace hstrip : ¬ stripCL file.content.data = [] := by simpa using hstrip
    replace hcond : pyTruthy v = false ∨ v.isStr = false := by
      simpa [Bool.or_eq_true, Bool.not_eq_true'] using hcond
    simp [verify_yaml, hfs, hstrip, hp, yamlGet, hget, hcond, YamlVal.isNull,
      YamlVal.isMap]
  · intro file kvs v hfs hstrip hp hget htr hstr
    replace hstrip : ¬ stripCL file.content.data = [] := by simpa using hstrip
    simp [verify_yaml, hfs, hstrip, hp, yamlGet, hget, htr, hstr, YamlVal.isNull,
      YamlVal.isMap]

/-- Witness for C2: the missing-file arm applied at a concrete absent path. -/
theorem claim_C2_witness :
    verify_yaml c2fs "absent.yaml" =
      (false, none, some ("File does not exist: " ++ "absent.yaml")) :=
  (claim_C2 c2fs "absent.yaml").2.1 rfl

/-! ## Claims about git entries (C6, C7) -/

theorem splitCL_ne_nil (sep : Char) : ∀ l : List Char, splitCL sep l ≠ [] := by
  intro l
  cases l with
  | nil => simp [splitCL]
  | cons c rest =>
    simp only [splitCL]
    split
    · simp
    · split
      · simp_all
      · simp

theorem splitCL_headD_eq_takeWhile (sep : Char) :
    ∀ l : List Char, (splitCL sep l).headD [] = l.takeWhile (· ≠ sep) := by
  intro l
  induction l with
  | nil => rfl
  | cons c rest ih =>
    simp only [splitCL, List.takeWhile]
    by_cases hc : c = sep
    · simp [hc]
    · simp only [hc, if_false]
      cases hs : splitCL sep rest with
      | nil => exact absurd hs (splitCL_ne_nil sep rest)
      | cons h t =>
        rw [hs] at ih
        simp only [List.headD_cons] at ih
        simp [hc, ih]

/-- Counterexample for C6: for the URL `https://host/a.gitb.git` the code
computes the repository name `ab`, because `.replace('.git', '')` removes
every occurrence of `.git`, while the claimed derivation — strip a trailing
`@ref`, take the last path segment, strip a trailing `.git` suffix — yields
`a.gitb`. -/
theorem claim_C6_counterexample :
    process_entry sampleEnv "/m" ⟨none, some "https://host/a.gitb.git"⟩ =
      .skippedE "ab" ∧
    repo_name_of "https://host/a.gitb.git" = "ab" ∧
    repo_name_claimed "https://host/a.gitb.git" = "a.gitb" ∧
    ("ab" : String) ≠ "a.gitb" :=
  ⟨rfl, rfl, rfl, by decide⟩

/-- C6 as amended: for every `git`-only entry, the repository name displayed
is derived by taking the portion of the URL before the first `@` (dropping
any `@ref` suffix), stripping trailing slashes, taking the last
`/`-separated path segment, and removing every occurrence of `.git` (not
only a trailing one) from that segment. -/
theorem claim_C6_amended (env : Env) (mdir : String) (u : String) :
    process_entry env mdir ⟨none, some u⟩ = .skippedE (repo_name_amended u) := by
  show EntryOutcome.skippedE (repo_name_of u) = .skippedE (repo_name_amended u)
  unfold repo_name_of repo_name_amended
  rw [splitCL_headD_eq_takeWhile]

/-- Counterexample for C7: an entry carrying both the `local` and the `git`
tag is processed through the local branch — here it is copied, so it is
counted under "copied" and not under "skipped", although it carries the
`git` tag. -/
theorem claim_C7_counterexample :
    (Entry.mk (some "/a") (some "git://host/repo.git")).gitUrl =
      some "git://host/repo.git" ∧
    (gather_packages_from_manifest sampleEnv
        ⟨"/m", [⟨some "/a", some "git://host/repo.git"⟩]⟩
        ⟨false, fun _ => none⟩ false).copied = 1 ∧
    (gather_packages_from_manifest sampleEnv
        ⟨"/m", [⟨some "/a", some "git://host/repo.git"⟩]⟩
        ⟨false, fun _ => none⟩ false).skipped = 0 ∧
    (gather_packages_from_manifest sampleEnv
        ⟨"/m", [⟨some "/a", some "git://host/repo.git"⟩]⟩
        ⟨false, fun _ => none⟩ false).errored = 0 :=
  ⟨rfl, rfl, rfl, rfl⟩

/-- C7 as amended: every manifest entry that carries the `git` tag and does
not carry the `local` tag is never fetched and is always counted under the
skipped counter — the loop step increments skipped by one and leaves the
copied counter, the errored counter and the cache contents untouched. -/
theorem claim_C7_amended (env : Env) (mdir : String) (e : Entry) (st : GState)
    (u : String) (hl : e.localPath = none) (hg : e.gitUrl = some u) :
    process_entry env mdir e = .skippedE (repo_name_of u) ∧
    gstep env mdir st e = { st with skipped := st.skipped + 1 } := by
  have hp : process_entry env mdir e = .skippedE (repo_name_of u) := by
    unfold process_entry
    rw [hl, hg]
  exact ⟨hp, by unfold gstep; rw [hp]⟩

/-- Witness for C7's amended claim at a concrete git-only entry and state. -/
theorem claim_C7_amended_witness :
    process_entry sampleEnv "/m" ⟨none, some "git://host/repo.git"⟩ =
      .skippedE "repo" ∧
    gstep sampleEnv "/m" ⟨4, 5, 6, fun _ => none⟩ ⟨none, some "git://host/repo.git"⟩ =
      ⟨4, 6, 6, fun _ => none⟩ :=
  claim_C7_amended sampleEnv "/m" ⟨none, some "git://host/repo.git"⟩
    ⟨4, 5, 6, fun _ => none⟩ "git://host/repo.git" rfl rfl

/-! ## Helper lemmas about the build loop -/

theorem mkdirsOf_append : ∀ a b : List BEvent,
    mkdirsOf (a ++ b) = mkdirsOf a ++ mkdirsOf b := by
  intro a b
  induction a with
  | nil => rfl
  | cons ev a ih => cases ev <;> simp [mkdirsOf, ih]

theorem runPairs_all_ok (runner : List String → Int) (c base : String)
    (pk : List String) :
    ∀ pairs : List (String × String),
      (∀ pr ∈ pairs,
        runner (configure_cmd c (pairDir base pr) pr.2 pr.1) = 0 ∧
        runner (build_cmd (pairDir base pr) pk) = 0) →
      (runPairs runner c base pk pairs).2 = 0 ∧
      mkdirsOf (runPairs runner c base pk pairs).1 = pairs.map (pairDir base) := by
  intro pairs
  induction pairs with
  | nil => intro _; exact ⟨rfl, rfl⟩
  | cons pr rest ih =>
    intro h
    obtain ⟨hc, hb⟩ := h pr (List.mem_cons_self pr rest)
    have ih' := ih fun q hq => h q (List.mem_cons_of_mem pr hq)
    simp only [runPairs, hc, hb]
    simp only [ne_eq, not_true_eq_false, if_false, reduceIte]
    constructor
    · exact ih'.1
    · simp [mkdirsOf_append, mkdirsOf, ih'.2]

theorem runPairs_zero_all_ok (runner : List String → Int) (c base : String)
    (pk : List String) :
    ∀ pairs : List (String × String),
      (runPairs runner c base pk pairs).2 = 0 →
      ∀ pr ∈ pairs,
        runner (configure_cmd c (pairDir base pr) pr.2 pr.1) = 0 ∧
        runner (build_cmd (pairDir base pr) pk) = 0 := by
  intro pairs
  induction pairs with
  | nil => intro _ pr hpr; exact absurd hpr (List.not_mem_nil pr)
  | cons pr rest ih =>
    intro h q hq
    by_cases hc : runner (configure_cmd c (pairDir base pr) pr.2 pr.1) = 0
    · by_cases hb : runner (build_cmd (pairDir base pr) pk) = 0
      · simp only [runPairs, hc, hb] at h
        simp only [ne_eq, not_true_eq_false, if_false, reduceIte] at h
        rcases List.mem_cons.mp hq with hqe | hqm
        · subst hqe; exact ⟨hc, hb⟩
        · exact ih h q hqm
      · exfalso
        simp only [runPairs, hc] at h
        simp only [ne_eq, not_true_eq_false, if_false, reduceIte, hb,
          not_false_eq_true, if_true] at h
    · exfalso
      simp only [runPairs] at h
      rw [if_pos hc] at h
      exact hc h

theorem runPairs_cfg_fail (runner : List String → Int) (c base : String)
    (pk : List String) :
    ∀ (l1 : List (String × String)) (pr : String × String)
      (l2 : List (String × String)),
      (∀ q ∈ l1,
        runner (configure_cmd c (pairDir base q) q.2 q.1) = 0 ∧
        runner (build_cmd (pairDir base q) pk) = 0) →
      runner (configure_cmd c (pairDir base pr) pr.2 pr.1) ≠ 0 →
      (runPairs runner c base pk (l1 ++ pr :: l2)).2 =
        runner (configure_cmd c (pairDir base pr) pr.2 pr.1) ∧
      mkdirsOf (runPairs runner c base pk (l1 ++ pr :: l2)).1 =
        l1.map (pairDir base) ++ [pairDir base pr] := by
  intro l1
  induction l1 with
  | nil =>
    intro pr l2 _ hfail
    simp only [List.nil_append, runPairs]
    rw [if_pos hfail]
    exact ⟨rfl, rfl⟩
  | cons q l1 ih =>
    intro pr l2 hok hfail
    obtain ⟨hc, hb⟩ := hok q (List.mem_cons_self q l1)
    have ih' := ih pr l2 (fun x hx => hok x (List.mem_cons_of_mem q hx)) hfail
    simp only [List.cons_append, runPairs, hc, hb]
    simp only [ne_eq, not_true_eq_false, if_false, reduceIte]
    constructor
    · exact ih'.1
    · simp [mkdirsOf_append, mkdirsOf, ih'.2]

theorem runPairs_bld_fail (runner : List String → Int) (c base : String)
    (pk : List String) :
    ∀ (l1 : List (String × String)) (pr : String × String)
      (l2 : List (String × String)),
      (∀ q ∈ l1,
        runner (configure_cmd c (pairDir base q) q.2 q.1) = 0 ∧
        runner (build_cmd (pairDir base q) pk) = 0) →
      runner (configure_cmd c (pairDir base pr) pr.2 pr.1) = 0 →
      runner (build_cmd (pairDir base pr) pk) ≠ 0 →
      (runPairs runner c base pk (l1 ++ pr :: l2)).2 =
        runner (build_cmd (pairDir base pr) pk) ∧
      mkdirsOf (runPairs runner c base pk (l1 ++ pr :: l2)).1 =
        l1.map (pairDir base) ++ [pairDir base pr] := by
  intro l1
  induction l1 with
  | nil =>
    intro pr l2 _ hcok hfail
    simp only [List.nil_append, runPairs, hcok]
    simp only [ne_eq, not_true_eq_false, if_false, reduceIte]
    rw [if_pos hfail]
    exact ⟨rfl, rfl⟩
  | cons q l1 ih =>
    intro pr l2 hok hcok hfail
    obtain ⟨hc, hb⟩ := hok q (List.mem_cons_self q l1)
    have ih' := ih pr l2 (fun x hx => hok x (List.mem_cons_of_mem q hx)) hcok hfail
    simp only [List.cons_append, runPairs, hc, hb]
    simp only [ne_eq, not_true_eq_false, if_false, reduceIte]
    constructor
    · exact ih'.1
    · simp [mkdirsOf_append, mkdirsOf, ih'.2]

/-! ## Claims about the build driver (C3, C4) -/

/-- C3: the driver iterates the cartesian product presets × build types with
presets as the outer loop; on full success it returns 0 and creates exactly
the product's build directories in order; it returns 0 only if every pair's
configure and build steps succeed; and on the first configure or build step
returning non-zero it returns that exact code and creates no directory for
any later pair.  With presets `[A, B]` and build types `[Debug, Release]`
the product is the four pairs `A/Debug, A/Release, B/Debug, B/Release`. -/
theorem claim_C3 (runner : List String → Int) (resolve : String → String)
    (args : BuildArgs) (hp : args.preset ≠ []) (ht : args.build_type ≠ []) :
    build_main runner resolve args =
      runPairs runner (resolve args.cmake) (buildBase resolve args) args.package
        (pairsOf args.preset args.build_type) ∧
    pairsOf ["A", "B"] ["Debug", "Release"] =
      [("A", "Debug"), ("A", "Release"), ("B", "Debug"), ("B", "Release")] ∧
    ((∀ pr ∈ pairsOf args.preset args.build_type,
        runner (configure_cmd (resolve args.cmake)
          (pairDir (buildBase resolve args) pr) pr.2 pr.1) = 0 ∧
        runner (build_cmd (pairDir (buildBase resolve args) pr) args.package) = 0) →
      (build_main runner resolve args).2 = 0 ∧
      mkdirsOf (build_main runner resolve args).1 =
        (pairsOf args.preset args.build_type).map (pairDir (buildBase resolve args))) ∧
    ((build_main runner resolve args).2 = 0 →
      ∀ pr ∈ pairsOf args.preset args.build_type,
        runner (configure_cmd (resolve args.cmake)
          (pairDir (buildBase resolve args) pr) pr.2 pr.1) = 0 ∧
        runner (build_cmd (pairDir (buildBase resolve args) pr) args.package) = 0) ∧
    (∀ (l1 : List (String × String)) (pr : String × String)
       (l2 : List (String × String)),
      pairsOf args.preset args.build_type = l1 ++ pr :: l2 →
      (∀ q ∈ l1,
        runner (configure_cmd (resolve args.cmake)
          (pairDir (buildBase resolve args) q) q.2 q.1) = 0 ∧
        runner (build_cmd (pairDir (buildBase resolve args) q) args.package) = 0) →
      runner (configure_cmd (resolve args.cmake)
        (pairDir (buildBase resolve args) pr) pr.2 pr.1) ≠ 0 →
      (build_main runner resolve args).2 =
        runner (configure_cmd (resolve args.cmake)
          (pairDir (buildBase resolve args) pr) pr.2 pr.1) ∧
      mkdirsOf (build_main runner resolve args).1 =
        l1.map (pairDir (buildBase resolve args)) ++
          [pairDir (buildBase resolve args) pr]) ∧
    (∀ (l1 : List (String × String)) (pr : String × String)
       (l2 : List (String × String)),
      pairsOf args.preset args.build_type = l1 ++ pr :: l2 →
      (∀ q ∈ l1,
        runner (configure_cmd (resolve args.cmake)
          (pairDir (buildBase resolve args) q) q.2 q.1) = 0 ∧
        runner (build_cmd (pairDir (buildBase resolve args) q) args.package) = 0) →
      runner (configure_cmd (resolve args.cmake)
        (pairDir (buildBase resolve args) pr) pr.2 pr.1) = 0 →
      runner (build_cmd (pairDir (buildBase resolve args) pr) args.package) ≠ 0 →
      (build_main runner resolve args).2 =
        runner (build_cmd (pairDir (buildBase resolve args) pr) args.package) ∧
      mkdirsOf (build_main runner resolve args).1 =
        l1.map (pairDir (buildBase resolve args)) ++
          [pairDir (buildBase resolve args) pr]) := by
  have hp' : args.preset.isEmpty = false := by
    cases h : args.preset with
    | nil => exact absurd h hp
    | cons a l => rfl
  have ht' : args.build_type.isEmpty = false := by
    cases h : args.build_type with
    | nil => exact absurd h ht
    | cons a l => rfl
  have heq : build_main runner resolve args =
      runPairs runner (resolve args.cmake) (buildBase resolve args) args.package
        (pairsOf args.preset args.build_type) := by
    cases hbd : args.build_dir <;> simp [build_main, buildBase, hp', ht', hbd]
  refine ⟨heq, rfl, ?_, ?_, ?_, ?_⟩
  · intro h
    rw [heq]
    exact runPairs_all_ok runner (resolve args.cmake) (buildBase resolve args)
      args.package (pairsOf args.preset args.build_type) h
  · intro h
    rw [heq] at h
    exact runPairs_zero_all_ok runner (resolve args.cmake) (buildBase resolve args)
      args.package (pairsOf args.preset args.build_type) h
  · intro l1 pr l2 hsplit hok hfail
    rw [heq, hsplit]
    exact runPairs_cfg_fail runner (resolve args.cmake) (buildBase resolve args)
      args.package l1 pr l2 hok hfail
  · intro l1 pr l2 hsplit hok hcok hfail
    rw [heq, hsplit]
    exact runPairs_bld_fail runner (resolve args.cmake) (buildBase resolve args)
      args.package l1 pr l2 hok hcok hfail

/-- Witness for C3: on full success exactly the four directories `b/A/Debug`,
`b/A/Release`, `b/B/Debug`, `b/B/Release` are created, in that order, and the
exit code is 0; when the configure step for `A/Debug` fails with code 1, the
exit code is 1 and only `b/A/Debug` was ever created. -/
theorem claim_C3_witness :
    (build_main okRunner id argsAB).2 = 0 ∧
    mkdirsOf (build_main okRunner id argsAB).1 =
      ["b/A/Debug", "b/A/Release", "b/B/Debug", "b/B/Release"] ∧
    (build_main failRunner id argsAB).2 = 1 ∧
    mkdirsOf (build_main failRunner id argsAB).1 = ["b/A/Debug"] := by
  have h1 := (claim_C3 okRunner id argsAB (List.cons_ne_nil _ _)
      (List.cons_ne_nil _ _)).2.2.1
    (by intro pr hpr; exact ⟨rfl, rfl⟩)
  have h2 := (claim_C3 failRunner id argsAB (List.cons_ne_nil _ _)
      (List.cons_ne_nil _ _)).2.2.2.2.1
    [] ("A", "Debug") [("A", "Release"), ("B", "Debug"), ("B", "Release")] rfl
    (by intro q hq; exact absurd hq (List.not_mem_nil q)) (by decide)
  exact ⟨h1.1, h1.2, h2.1, h2.2⟩

/-- C4: the build step receives all requested package names immediately after
a single `--target` flag — one combined target argument — and when no
packages were requested no target restriction appears in the command. -/
theorem claim_C4 (bd : String) (pk : List String) :
    (pk ≠ [] → build_cmd bd pk = ["cmake", "--build", bd, "--target"] ++ pk) ∧
    build_cmd bd [] = ["cmake", "--build", bd] := by
  constructor
  · intro h
    have hne : pk.isEmpty = false := by
      cases hp : pk with
      | nil => exact absurd hp h
      | cons a l => rfl
    simp [build_cmd, hne]
  · rfl

/-- Witness for C4: two requested packages appear after one `--target`. -/
theorem claim_C4_witness :
    build_cmd "bdir" ["alpha", "beta"] =
      ["cmake", "--build", "bdir", "--target", "alpha", "beta"] :=
  (claim_C4 "bdir" ["alpha", "beta"]).1 (List.cons_ne_nil _ _)
